import Mathlib

/-!
Shallow embedding of the quantitative projection engine of the retirement
calculator (`app.py`): the cash-event aggregator `apply_liquidity_events`,
the deterministic timeline builder `build_timeline`, the Monte Carlo
simulator `run_monte_carlo`, and the safe-withdrawal-rate solver
`solve_safe_withdrawal_rate`.  Money amounts and rates are modelled as
rationals (exact field arithmetic in place of IEEE doubles); ages are
integers.  Each definition mirrors the corresponding Python function
line by line; theorems below settle the frozen claims about them.
-/

/-- Embeds the `LiquidityEvent` dataclass of `app.py` (a one-time or
recurring signed cash flow).  The `type` field ("Credit"/"Debit") is kept
for fidelity although the engine only reads the signed `amount`. -/
structure LiquidityEvent where
  type : String
  label : String
  start_age : ℤ
  end_age : ℤ
  amount : ℚ
  recurrence : String
  enabled : Bool
  taxable : Bool
  tax_rate : ℚ
  deriving Repr, DecidableEq

/-- Embeds the `Scenario` dataclass of `app.py`.  The persisted
`liquidity_events` list of dictionaries is not reproduced here: the engine
functions receive the event list as a separate argument. -/
structure Scenario where
  name : String
  current_age : ℤ
  retirement_age : ℤ
  end_age : ℤ
  current_balance : ℚ
  contrib_amount : ℚ
  contrib_cadence : String
  nominal_return_pct : ℚ
  return_stdev_pct : ℚ
  inflation_pct : ℚ
  fee_pct : ℚ
  withdrawal_method : String
  withdrawal_pct : ℚ
  withdrawal_real_amount : ℚ
  withdrawal_frequency : String
  enable_mc : Bool
  mc_runs : ℕ
  enable_taxes : Bool
  effective_tax_rate_pct : ℚ
  inflation_enabled : Bool
  deriving Repr, DecidableEq

/-- Embeds the `TimelineRow` dataclass of `app.py`: one simulated year of
the deterministic projection. -/
structure TimelineRow where
  age : ℤ
  start_balance_nominal : ℚ
  contributions : ℚ
  liquidity_net : ℚ
  withdrawals : ℚ
  fees : ℚ
  taxes : ℚ
  growth : ℚ
  end_balance_nominal : ℚ
  cpi_index : ℚ
  end_balance_real : ℚ
  deriving Repr, DecidableEq, Inhabited

/-- The loop body of `apply_liquidity_events` (app.py lines 164-195) for a
single event: the event's contribution to the running totals
`(net, labels, event_taxes)` at the given age.  Disabled events, events
whose `[start_age, end_age]` window misses the age, and one-time events
away from their `start_age` contribute `(0, [], 0)`.  Monthly recurring
amounts are annualized by 12; tax accrues only when the event is taxable
and the (annualized) amount is strictly positive. -/
def eventContribution (age : ℤ) (e : LiquidityEvent) : ℚ × List String × ℚ :=
  if e.enabled ∧ e.start_age ≤ age ∧ age ≤ e.end_age then
    if e.recurrence = "One-time" then
      if age = e.start_age then
        (e.amount, [e.label],
          if e.taxable ∧ 0 < e.amount then e.amount * (e.tax_rate / 100) else 0)
      else (0, [], 0)
    else
      let amount := if e.recurrence = "Monthly" then e.amount * 12 else e.amount
      (amount, [e.label],
        if e.taxable ∧ 0 < amount then amount * (e.tax_rate / 100) else 0)
  else (0, [], 0)

/-- Embeds `apply_liquidity_events(age, events)` (app.py lines 147-197):
accumulates each event's contribution into the returned
`(net_amount, labels_list, event_taxes)` triple. -/
def apply_liquidity_events (age : ℤ) : List LiquidityEvent → ℚ × List String × ℚ
  | [] => (0, [], 0)
  | e :: rest =>
    let c := eventContribution age e
    let r := apply_liquidity_events age rest
    (c.1 + r.1, c.2.1 ++ r.2.1, c.2.2 + r.2.2)

/-- The mutable loop state of `build_timeline` (app.py lines 213-222):
running nominal balance, cumulative price index, prior year's ending
balance, and the first-shortfall marker. -/
structure TimelineState where
  balance_nominal : ℚ
  cpi_index : ℚ
  prior_year_end_balance : ℚ
  first_shortfall_age : Option ℤ
  deriving Repr, DecidableEq, Inhabited

/-- Initialization of `build_timeline`'s state (app.py lines 213-222). -/
def initTimelineState (s : Scenario) : TimelineState :=
  { balance_nominal := s.current_balance
    cpi_index := 1
    prior_year_end_balance := s.current_balance
    first_shortfall_age := none }

/-- Contributions for one age (app.py lines 227-232): nonzero only before
`retirement_age`, annualized by 12 under the Monthly cadence. -/
def contributionsAt (s : Scenario) (age : ℤ) : ℚ :=
  if age < s.retirement_age then
    (if s.contrib_cadence = "Monthly" then s.contrib_amount * 12 else s.contrib_amount)
  else 0

/-- Withdrawals for one age in the deterministic timeline (app.py lines
237-254): zero before retirement; under the percentage method the prior
year's ending balance times `withdrawal_pct/100` (no frequency scaling);
under the fixed-real method the real amount times the price index when
inflation is enabled (times 12 under Monthly frequency). -/
def withdrawalsAt (s : Scenario) (age : ℤ) (st : TimelineState) : ℚ :=
  if s.retirement_age ≤ age then
    if s.withdrawal_method = "Fixed % of prior-year end balance" then
      st.prior_year_end_balance * (s.withdrawal_pct / 100)
    else
      let base :=
        if s.inflation_enabled then s.withdrawal_real_amount * st.cpi_index
        else s.withdrawal_real_amount
      if s.withdrawal_frequency = "Monthly" then base * 12 else base
  else 0

/-- One iteration of `build_timeline`'s age loop (app.py lines 224-300):
produces the recorded `TimelineRow` and the updated state.  Mirrors the
source order: contributions, liquidity events, withdrawals, fees, taxes,
growth, end balance, the price-index pin to 1 at the first age, the real
balance, the shortfall marker, and the price-index compounding that is
skipped at the first simulated age. -/
def timelineStep (s : Scenario) (events : List LiquidityEvent) (age : ℤ)
    (st : TimelineState) : TimelineRow × TimelineState :=
  let start_balance := st.balance_nominal
  let contributions := contributionsAt s age
  let liquidity_net := (apply_liquidity_events age events).1
  let liquidity_event_taxes := (apply_liquidity_events age events).2.2
  let withdrawals := withdrawalsAt s age st
  let fees := start_balance * (s.fee_pct / 100)
  let tax_rate := if s.enable_taxes then s.effective_tax_rate_pct / 100 else 0
  let taxes := liquidity_event_taxes +
    (if s.enable_taxes then withdrawals * tax_rate else 0)
  let balance_after_cashflows :=
    start_balance + contributions + liquidity_net - withdrawals - fees - taxes
  let growth := balance_after_cashflows * (s.nominal_return_pct / 100)
  let end_balance_nominal := balance_after_cashflows + growth
  let cpi_recorded :=
    if s.inflation_enabled ∧ age = s.current_age then 1 else st.cpi_index
  let end_balance_real :=
    if s.inflation_enabled then end_balance_nominal / cpi_recorded
    else end_balance_nominal
  let row : TimelineRow :=
    { age := age
      start_balance_nominal := start_balance
      contributions := contributions
      liquidity_net := liquidity_net
      withdrawals := withdrawals
      fees := fees
      taxes := taxes
      growth := growth
      end_balance_nominal := end_balance_nominal
      cpi_index := cpi_recorded
      end_balance_real := end_balance_real }
  let shortfall :=
    if st.first_shortfall_age = none ∧ end_balance_nominal < 0 then some age
    else st.first_shortfall_age
  let cpi_next :=
    if s.inflation_enabled ∧ age ≠ s.current_age then
      cpi_recorded * (1 + s.inflation_pct / 100)
    else cpi_recorded
  (row,
   { balance_nominal := end_balance_nominal
     cpi_index := cpi_next
     prior_year_end_balance := end_balance_nominal
     first_shortfall_age := shortfall })

/-- The ages iterated by `build_timeline`'s loop:
`range(current_age, end_age + 1)` (app.py line 224). -/
def timelineAges (s : Scenario) : List ℤ :=
  (List.range (s.end_age + 1 - s.current_age).toNat).map
    (fun (i : ℕ) => s.current_age + (i : ℤ))

/-- The rows produced by running `timelineStep` over a list of ages
starting from a given state (the `rows.append` accumulation of app.py). -/
def timelineRowsFrom (s : Scenario) (events : List LiquidityEvent) :
    List ℤ → TimelineState → List TimelineRow
  | [], _ => []
  | age :: rest, st =>
    (timelineStep s events age st).1 ::
      timelineRowsFrom s events rest (timelineStep s events age st).2

/-- The state held before each iteration of the age loop (used to phrase
invariants about `timelineRowsFrom`). -/
def timelineStatesFrom (s : Scenario) (events : List LiquidityEvent) :
    List ℤ → TimelineState → List TimelineState
  | [], _ => []
  | age :: rest, st =>
    st :: timelineStatesFrom s events rest (timelineStep s events age st).2

/-- Embeds `build_timeline(scenario, liquidity_events)` (app.py lines
200-319), returning the ordered row sequence. -/
def build_timeline (s : Scenario) (events : List LiquidityEvent) : List TimelineRow :=
  timelineRowsFrom s events (timelineAges s) (initTimelineState s)

/-- The deterministic terminal nominal balance
(`df.iloc[-1]['end_balance_nominal']`, app.py line 306). -/
def terminal_nominal (s : Scenario) (events : List LiquidityEvent) : ℚ :=
  ((build_timeline s events).map TimelineRow.end_balance_nominal).getLastD 0

/-- The solvency test of one solver iteration (app.py lines 471-476): the
minimum of `end_balance_nominal` over all timeline rows is nonnegative.
(An empty timeline yields `none`, treated as failing, matching pandas'
NaN minimum comparing false.) -/
def isSolvent (s : Scenario) (events : List LiquidityEvent) : Bool :=
  match ((build_timeline s events).map TimelineRow.end_balance_nominal).min? with
  | some m => decide ((0 : ℚ) ≤ m)
  | none => false

/-- The binary-search loop of `solve_safe_withdrawal_rate` (app.py lines
464-489), with the iteration budget as structural fuel: each iteration
tests the midpoint, narrows the bracket, and stops when the bracket width
drops below the tolerance (or the budget runs out), returning the
best-known-safe rate. -/
def swrSearch (s : Scenario) (events : List LiquidityEvent) (tolerance : ℚ) :
    ℕ → ℚ → ℚ → ℚ → ℚ
  | 0, _, _, best => best
  | fuel + 1, low, high, best =>
    let mid := (low + high) / 2
    let solvent := isSolvent { s with withdrawal_pct := mid } events
    let best1 := if solvent then mid else best
    let low1 := if solvent then mid else low
    let high1 := if solvent then high else mid
    if high1 - low1 < tolerance then best1
    else swrSearch s events tolerance fuel low1 high1 best1

/-- The number of iterations `swrSearch` executes from a given bracket
(instrumentation for stating the iteration bound; same recursion as
`swrSearch`). -/
def swrSearchSteps (s : Scenario) (events : List LiquidityEvent) (tolerance : ℚ) :
    ℕ → ℚ → ℚ → ℕ
  | 0, _, _ => 0
  | fuel + 1, low, high =>
    let mid := (low + high) / 2
    let solvent := isSolvent { s with withdrawal_pct := mid } events
    let low1 := if solvent then mid else low
    let high1 := if solvent then high else mid
    if high1 - low1 < tolerance then 1
    else 1 + swrSearchSteps s events tolerance fuel low1 high1

/-- Embeds `solve_safe_withdrawal_rate(scenario, liquidity_events,
tolerance, max_iterations)` (app.py lines 444-496): `none` when the
scenario does not use the percentage-of-prior-balance method, else the
result of the binary search over `[0, 20]` starting from best rate 0. -/
def solve_safe_withdrawal_rate (s : Scenario) (events : List LiquidityEvent)
    (tolerance : ℚ := 1 / 100) (max_iterations : ℕ := 50) : Option ℚ :=
  if s.withdrawal_method ≠ "Fixed % of prior-year end balance" then none
  else some (swrSearch s events tolerance max_iterations 0 20 0)

/-- The mutable per-trial state of `run_monte_carlo`'s inner loop (app.py
lines 352-358). -/
structure MCState where
  balance_nominal : ℚ
  cpi_index : ℚ
  prior_year_end_balance : ℚ
  deriving Repr, DecidableEq

/-- Initialization of one Monte Carlo trial (app.py lines 352-358). -/
def mcInitState (s : Scenario) : MCState :=
  { balance_nominal := s.current_balance
    cpi_index := 1
    prior_year_end_balance := s.current_balance }

/-- Withdrawals for one age in a Monte Carlo trial (app.py lines 373-389).
Unlike the deterministic builder, the Monthly frequency multiplies by 12
in BOTH withdrawal methods, and the fixed-real method scales by the price
index regardless of the inflation-enabled flag. -/
def mcWithdrawals (s : Scenario) (age : ℤ) (st : MCState) : ℚ :=
  if s.retirement_age ≤ age then
    if s.withdrawal_method = "Fixed % of prior-year end balance" then
      let w := st.prior_year_end_balance * (s.withdrawal_pct / 100)
      if s.withdrawal_frequency = "Monthly" then w * 12 else w
    else
      let w := s.withdrawal_real_amount * st.cpi_index
      if s.withdrawal_frequency = "Monthly" then w * 12 else w
  else 0

/-- One year of a Monte Carlo trial (app.py lines 360-412) with the drawn
return `ret`: returns the year's ending nominal balance and the updated
state.  The price index compounds unconditionally at the end of every
year. -/
def mcStep (s : Scenario) (events : List LiquidityEvent) (age : ℤ) (ret : ℚ)
    (st : MCState) : ℚ × MCState :=
  let start_balance := st.balance_nominal
  let contributions := contributionsAt s age
  let liquidity_net := (apply_liquidity_events age events).1
  let liquidity_event_taxes := (apply_liquidity_events age events).2.2
  let withdrawals := mcWithdrawals s age st
  let fees := start_balance * (s.fee_pct / 100)
  let tax_rate := if s.enable_taxes then s.effective_tax_rate_pct / 100 else 0
  let taxes := liquidity_event_taxes +
    (if s.enable_taxes then withdrawals * tax_rate else 0)
  let balance_after_cashflows :=
    start_balance + contributions + liquidity_net - withdrawals - fees - taxes
  let growth := balance_after_cashflows * ret
  let end_balance_nominal := balance_after_cashflows + growth
  (end_balance_nominal,
   { balance_nominal := end_balance_nominal
     cpi_index := st.cpi_index * (1 + s.inflation_pct / 100)
     prior_year_end_balance := end_balance_nominal })

/-- The per-trial sequence of ending nominal balances over a list of
(age, drawn return) pairs. -/
def mcTrialNominalPath (s : Scenario) (events : List LiquidityEvent) :
    List (ℤ × ℚ) → MCState → List ℚ
  | [], _ => []
  | (age, ret) :: rest, st =>
    (mcStep s events age ret st).1 ::
      mcTrialNominalPath s events rest (mcStep s events age ret st).2

/-- The per-trial real-valued balance path (`path.append(end / cpi_index)`
with the pre-update index, app.py line 408). -/
def mcTrialRealPath (s : Scenario) (events : List LiquidityEvent) :
    List (ℤ × ℚ) → MCState → List ℚ
  | [], _ => []
  | (age, ret) :: rest, st =>
    ((mcStep s events age ret st).1 / st.cpi_index) ::
      mcTrialRealPath s events rest (mcStep s events age ret st).2

/-- The (age, drawn return) pairs one trial consumes:
`enumerate(range(current_age, end_age + 1))` paired with that trial's row
of the pre-generated grid (app.py line 360). -/
def mcAgesWithReturns (s : Scenario) (rets : ℕ → ℚ) : List (ℤ × ℚ) :=
  (List.range (s.end_age + 1 - s.current_age).toNat).map
    (fun (i : ℕ) => (s.current_age + (i : ℤ), rets i))

/-- The global numpy pseudo-random generator state.  Only the properties
the engine relies on are modelled: `np.random.seed` replaces the state by
a function of the seed alone, and a Normal draw is `mean + stdev * z` for
a noise value determined by the state. -/
structure NpRandomState where
  state : ℕ
  deriving Repr, DecidableEq

/-- Model of `np.random.seed(seed)` (app.py line 333): the resulting
global state depends only on the seed, not on the prior state. -/
def npSeed (_pre : NpRandomState) (seed : ℕ) : NpRandomState := ⟨seed⟩

/-- Model of the standard-normal noise grid the seeded generator yields:
a concrete deterministic function of the state and the (trial, year)
index.  The actual values of numpy's Mersenne-Twister draws are not
modelled — no claim depends on them — only that they are a pure function
of the seeded state. -/
def normalNoise (state : ℕ) (i j : ℕ) : ℚ :=
  ((state + 2 * i + 3 * j : ℕ) : ℚ)

/-- Model of `np.random.normal(mean, stdev, size=(runs, num_years))`
(app.py line 344): a Normal draw is `mean + stdev * z`; with `stdev = 0`
every draw equals `mean`. -/
def npNormalGrid (st : NpRandomState) (mean stdev : ℚ) : ℕ → ℕ → ℚ :=
  fun i j => mean + stdev * normalNoise st.state i j

/-- `np.median` with the standard midpoint convention: the middle element
of the sorted list, or the mean of the two middle elements.  (Sorting is
modelled by insertion sort — only the sorted result matters, not numpy's
algorithm.) -/
def npMedian (xs : List ℚ) : ℚ :=
  let sorted := xs.insertionSort (· ≤ ·)
  let n := xs.length
  if n = 0 then 0
  else if n % 2 = 1 then sorted.getD (n / 2) 0
  else (sorted.getD (n / 2 - 1) 0 + sorted.getD (n / 2) 0) / 2

/-- `np.percentile` with numpy's default linear interpolation:
position `q/100 * (n-1)` in the sorted list, interpolating between the
neighbouring order statistics. -/
def npPercentile (xs : List ℚ) (q : ℚ) : ℚ :=
  let sorted := xs.insertionSort (· ≤ ·)
  let n := xs.length
  if n = 0 then 0
  else
    let pos : ℚ := q / 100 * ((n : ℚ) - 1)
    let lower : ℕ := pos.floor.toNat
    let frac : ℚ := pos - (pos.floor : ℚ)
    let lo := sorted.getD lower 0
    sorted.getD lower 0 + frac * (sorted.getD (lower + 1) lo - lo)

/-- The statistics dictionary `run_monte_carlo` returns (app.py lines
433-441). -/
structure MCResult where
  probability_no_shortfall : ℚ
  median_terminal : ℚ
  p10_terminal : ℚ
  p90_terminal : ℚ
  p10_path : List ℚ
  p50_path : List ℚ
  p90_path : List ℚ
  deriving Repr, DecidableEq

/-- Embeds `run_monte_carlo(scenario, liquidity_events, runs, seed)`
(app.py lines 322-441).  `pre` is the global numpy generator state on
entry; the function first reseeds it, pre-generates the full
`[runs × num_years]` grid of returns, simulates each trial with the
year-by-year recurrence of `mcStep`, and aggregates terminal values,
minimum balances (seeded with the starting balance, app.py line 358) and
real-valued paths into the returned statistics. -/
def run_monte_carlo (pre : NpRandomState) (s : Scenario)
    (events : List LiquidityEvent) (runs : ℕ) (seed : ℕ) : MCResult :=
  let st := npSeed pre seed
  let grid := npNormalGrid st (s.nominal_return_pct / 100) (s.return_stdev_pct / 100)
  let num_years := (s.end_age + 1 - s.current_age).toNat
  let nominalPaths := (List.range runs).map
    (fun t => mcTrialNominalPath s events (mcAgesWithReturns s (grid t)) (mcInitState s))
  let realPaths := (List.range runs).map
    (fun t => mcTrialRealPath s events (mcAgesWithReturns s (grid t)) (mcInitState s))
  let terminal_values := nominalPaths.map (fun p => p.getLastD s.current_balance)
  let min_balances := nominalPaths.map (fun p => p.foldl min s.current_balance)
  { probability_no_shortfall :=
      ((min_balances.filter (fun m => decide ((0 : ℚ) ≤ m))).length : ℚ) / (runs : ℚ)
    median_terminal := npMedian terminal_values
    p10_terminal := npPercentile terminal_values 10
    p90_terminal := npPercentile terminal_values 90
    p10_path := (List.range num_years).map
      (fun j => npPercentile (realPaths.map (fun p => p.getD j 0)) 10)
    p50_path := (List.range num_years).map
      (fun j => npPercentile (realPaths.map (fun p => p.getD j 0)) 50)
    p90_path := (List.range num_years).map
      (fun j => npPercentile (realPaths.map (fun p => p.getD j 0)) 90) }

/-- A concrete scenario refuting C2 as stated: inflation 3% enabled, a
two-year horizon (ages 65 and 66). -/
def cxC2 : Scenario :=
  { name := "cx-cpi"
    current_age := 65
    retirement_age := 65
    end_age := 66
    current_balance := 100
    contrib_amount := 0
    contrib_cadence := "Annual"
    nominal_return_pct := 0
    return_stdev_pct := 0
    inflation_pct := 3
    fee_pct := 0
    withdrawal_method := "Fixed % of prior-year end balance"
    withdrawal_pct := 0
    withdrawal_real_amount := 0
    withdrawal_frequency := "Annual"
    enable_mc := false
    mc_runs := 0
    enable_taxes := false
    effective_tax_rate_pct := 0
    inflation_enabled := true }
/-- A concrete scenario refuting C3 as stated: one retirement year, a
nominal return of -200% (so the year's growth factor is -1), balance 100,
no fees, taxes or events. -/
def cxC3 : Scenario :=
  { cxC2 with
    name := "cx-swr"
    end_age := 65
    nominal_return_pct := -200
    inflation_pct := 0 }
/-- A concrete scenario refuting C1 as stated: percentage withdrawal
method with Monthly frequency, zero return volatility. -/
def cxC1 : Scenario :=
  { cxC2 with
    name := "cx-mc"
    end_age := 65
    inflation_pct := 0
    nominal_return_pct := 0
    withdrawal_pct := 10
    withdrawal_frequency := "Monthly" }

/-! ## Generic lemmas about the deterministic timeline recursion -/

theorem timelineRowsFrom_length (s : Scenario) (events : List LiquidityEvent) :
    ∀ (ages : List ℤ) (st : TimelineState),
      (timelineRowsFrom s events ages st).length = ages.length := by
  intro ages
  induction ages with
  | nil => intro st; rfl
  | cons a rest ih => intro st; simp [timelineRowsFrom, ih]

theorem timelineStatesFrom_length (s : Scenario) (events : List LiquidityEvent) :
    ∀ (ages : List ℤ) (st : TimelineState),
      (timelineStatesFrom s events ages st).length = ages.length := by
  intro ages
  induction ages with
  | nil => intro st; rfl
  | cons a rest ih => intro st; simp [timelineStatesFrom, ih]

theorem range_map_getD {α : Type} (f : ℕ → α) {n i : ℕ} (h : i < n) (d : α) :
    ((List.range n).map f).getD i d = f i := by
  simp [List.getD_eq_getElem?_getD, List.getElem?_map, List.getElem?_range, h]

theorem timelineRowsFrom_getD (s : Scenario) (events : List LiquidityEvent) :
    ∀ (ages : List ℤ) (st : TimelineState) (i : ℕ), i < ages.length →
      (timelineRowsFrom s events ages st).getD i default =
        (timelineStep s events (ages.getD i 0)
          ((timelineStatesFrom s events ages st).getD i default)).1 := by
  intro ages
  induction ages with
  | nil => intro st i h; simp at h
  | cons a rest ih =>
    intro st i h
    cases i with
    | zero => rfl
    | succ j =>
      simp only [List.length_cons] at h
      simpa [timelineRowsFrom, timelineStatesFrom] using ih _ j (by omega)

theorem timelineStatesFrom_getD_zero (s : Scenario) (events : List LiquidityEvent)
    (a : ℤ) (rest : List ℤ) (st : TimelineState) :
    (timelineStatesFrom s events (a :: rest) st).getD 0 default = st := rfl

theorem timelineStatesFrom_getD_succ (s : Scenario) (events : List LiquidityEvent) :
    ∀ (ages : List ℤ) (st : TimelineState) (i : ℕ), i + 1 < ages.length →
      (timelineStatesFrom s events ages st).getD (i + 1) default =
        (timelineStep s events (ages.getD i 0)
          ((timelineStatesFrom s events ages st).getD i default)).2 := by
  intro ages
  induction ages with
  | nil => intro st i h; simp at h
  | cons a rest ih =>
    intro st i h
    cases i with
    | zero =>
      cases rest with
      | nil => simp at h
      | cons b rest2 => rfl
    | succ j =>
      simp only [List.length_cons] at h
      simpa [timelineStatesFrom] using ih _ j (by omega)

theorem timelineStep_age (s : Scenario) (events : List LiquidityEvent) (age : ℤ)
    (st : TimelineState) : (timelineStep s events age st).1.age = age := rfl

theorem timelineStep_withdrawals (s : Scenario) (events : List LiquidityEvent) (age : ℤ)
    (st : TimelineState) :
    (timelineStep s events age st).1.withdrawals = withdrawalsAt s age st := rfl

theorem timelineStep_snd_prior (s : Scenario) (events : List LiquidityEvent) (age : ℤ)
    (st : TimelineState) :
    (timelineStep s events age st).2.prior_year_end_balance =
      (timelineStep s events age st).1.end_balance_nominal := rfl

theorem mem_timelineRowsFrom (s : Scenario) (events : List LiquidityEvent) :
    ∀ (ages : List ℤ) (st : TimelineState) (row : TimelineRow),
      row ∈ timelineRowsFrom s events ages st →
      ∃ age st2, row = (timelineStep s events age st2).1 := by
  intro ages
  induction ages with
  | nil => intro st row h; simp [timelineRowsFrom] at h
  | cons a rest ih =>
    intro st row h
    simp only [timelineRowsFrom, List.mem_cons] at h
    rcases h with h | h
    · exact ⟨a, st, h⟩
    · exact ih _ row h

theorem build_timeline_length (s : Scenario) (events : List LiquidityEvent) :
    (build_timeline s events).length = (s.end_age + 1 - s.current_age).toNat := by
  rw [build_timeline, timelineRowsFrom_length, timelineAges, List.length_map,
    List.length_range]

theorem timelineStatesFrom_getD_zero' (s : Scenario) (events : List LiquidityEvent)
    (ages : List ℤ) (st : TimelineState) (h : 0 < ages.length) :
    (timelineStatesFrom s events ages st).getD 0 default = st := by
  cases ages with
  | nil => simp at h
  | cons a rest => rfl

/-- C4: for every scenario with `current_age ≤ end_age`, `build_timeline`
produces exactly `end_age - current_age + 1` rows whose ages increase
strictly by 1 starting at `current_age`, the first row's price index is
1.0, and when `current_age = end_age` exactly one row is produced. -/
theorem build_timeline_shape (s : Scenario) (events : List LiquidityEvent)
    (h : s.current_age ≤ s.end_age) :
    ((build_timeline s events).length : ℤ) = s.end_age - s.current_age + 1
    ∧ (∀ i : ℕ, i < (build_timeline s events).length →
        ((build_timeline s events).getD i default).age = s.current_age + i)
    ∧ ((build_timeline s events).getD 0 default).cpi_index = 1
    ∧ (s.current_age = s.end_age → (build_timeline s events).length = 1) := by
  have hlen : (build_timeline s events).length = (s.end_age + 1 - s.current_age).toNat :=
    build_timeline_length s events
  have hageslen : (timelineAges s).length = (s.end_age + 1 - s.current_age).toNat := by
    rw [timelineAges, List.length_map, List.length_range]
  refine ⟨by omega, ?_, ?_, by omega⟩
  · intro i hi
    rw [hlen] at hi
    have hgetD := timelineRowsFrom_getD s events (timelineAges s) (initTimelineState s) i
      (by omega)
    rw [build_timeline, hgetD, timelineStep_age, timelineAges,
      range_map_getD _ hi]
  · have h0 : 0 < (build_timeline s events).length := by omega
    have hgetD := timelineRowsFrom_getD s events (timelineAges s) (initTimelineState s) 0
      (by omega)
    rw [build_timeline, hgetD, timelineStatesFrom_getD_zero' s events _ _ (by omega)]
    have hage0 : (timelineAges s).getD 0 0 = s.current_age := by
      rw [timelineAges, range_map_getD _ (by omega : 0 < (s.end_age + 1 - s.current_age).toNat)]
      simp
    rw [hage0]
    simp [timelineStep, initTimelineState]

/-- C6: in every row of the deterministic timeline, fees equal the
start-of-year balance times the fee rate, growth equals the post-cashflow
balance times the nominal return rate, and the nominal end balance equals
that pre-growth figure plus the growth. -/
theorem timeline_row_fees_growth_end (s : Scenario) (events : List LiquidityEvent) :
    ∀ row ∈ build_timeline s events,
      row.fees = row.start_balance_nominal * (s.fee_pct / 100)
      ∧ row.growth = (row.start_balance_nominal + row.contributions + row.liquidity_net
          - row.withdrawals - row.fees - row.taxes) * (s.nominal_return_pct / 100)
      ∧ row.end_balance_nominal = (row.start_balance_nominal + row.contributions
          + row.liquidity_net - row.withdrawals - row.fees - row.taxes) + row.growth := by
  intro row hrow
  obtain ⟨age, st2, rfl⟩ := mem_timelineRowsFrom s events _ _ row hrow
  exact ⟨rfl, rfl, rfl⟩

/-- C7: in the deterministic timeline, withdrawals are zero before
`retirement_age` for every scenario (either withdrawal method), and under
the percentage-of-prior-balance method the withdrawal from
`retirement_age` onward equals the prior year's ending nominal balance
(the starting balance for the first simulated age) times
`withdrawal_pct / 100`, with no frequency scaling. -/
theorem timeline_withdrawals_spec (s : Scenario) (events : List LiquidityEvent) :
    ∀ i : ℕ, i < (build_timeline s events).length →
      (((build_timeline s events).getD i default).age < s.retirement_age →
          ((build_timeline s events).getD i default).withdrawals = 0)
      ∧ (s.withdrawal_method = "Fixed % of prior-year end balance" →
          s.retirement_age ≤ ((build_timeline s events).getD i default).age →
          ((build_timeline s events).getD i default).withdrawals =
            (if i = 0 then s.current_balance
             else ((build_timeline s events).getD (i - 1) default).end_balance_nominal)
              * (s.withdrawal_pct / 100)) := by
  intro i hi
  have hageslen : (timelineAges s).length = (s.end_age + 1 - s.current_age).toNat := by
    rw [timelineAges, List.length_map, List.length_range]
  have hlen : (build_timeline s events).length = (s.end_age + 1 - s.current_age).toNat :=
    build_timeline_length s events
  have hi2 : i < (timelineAges s).length := by omega
  have hgetD := timelineRowsFrom_getD s events (timelineAges s) (initTimelineState s) i hi2
  constructor
  · intro hlt
    rw [build_timeline, hgetD] at hlt ⊢
    rw [timelineStep_age] at hlt
    rw [timelineStep_withdrawals, withdrawalsAt, if_neg (by omega)]
  · intro hm hge
    rw [build_timeline, hgetD] at hge ⊢
    rw [timelineStep_age] at hge
    rw [timelineStep_withdrawals, withdrawalsAt, if_pos hge, if_pos hm]
    congr 1
    cases i with
    | zero =>
      rw [timelineStatesFrom_getD_zero' s events _ _ (by omega)]
      simp [initTimelineState]
    | succ j =>
      rw [timelineStatesFrom_getD_succ s events (timelineAges s) (initTimelineState s) j
        (by omega)]
      rw [timelineStep_snd_prior]
      have hgetDj := timelineRowsFrom_getD s events (timelineAges s) (initTimelineState s) j
        (by omega)
      rw [if_neg (Nat.succ_ne_zero j), Nat.add_sub_cancel, hgetDj]

theorem timelineStep_row_cpi (s : Scenario) (events : List LiquidityEvent) (age : ℤ)
    (st : TimelineState) :
    (timelineStep s events age st).1.cpi_index =
      (if s.inflation_enabled ∧ age = s.current_age then 1 else st.cpi_index) := rfl

theorem timelineStep_snd_cpi (s : Scenario) (events : List LiquidityEvent) (age : ℤ)
    (st : TimelineState) :
    (timelineStep s events age st).2.cpi_index =
      (if s.inflation_enabled ∧ age ≠ s.current_age then
        (if s.inflation_enabled ∧ age = s.current_age then 1 else st.cpi_index)
          * (1 + s.inflation_pct / 100)
      else (if s.inflation_enabled ∧ age = s.current_age then 1 else st.cpi_index)) := rfl

theorem timelineAges_getD (s : Scenario) {i : ℕ} (h : i < (timelineAges s).length) :
    (timelineAges s).getD i 0 = s.current_age + i := by
  rw [timelineAges] at h ⊢
  rw [List.length_map, List.length_range] at h
  exact range_map_getD _ h 0

theorem timeline_states_cpi (s : Scenario) (events : List LiquidityEvent)
    (he : s.inflation_enabled = true) :
    ∀ i : ℕ, i < (timelineAges s).length →
      ((timelineStatesFrom s events (timelineAges s) (initTimelineState s)).getD
          i default).cpi_index
        = if i = 0 then 1 else (1 + s.inflation_pct / 100) ^ (i - 1) := by
  intro i
  induction i with
  | zero =>
    intro h
    rw [timelineStatesFrom_getD_zero' s events _ _ h]
    simp [initTimelineState]
  | succ j ih =>
    intro h
    rw [timelineStatesFrom_getD_succ s events _ _ j h, timelineStep_snd_cpi,
      timelineAges_getD s (by omega)]
    cases j with
    | zero =>
      rw [if_neg (by simp [he]), if_pos (by simp [he])]
      simp
    | succ k =>
      have hne : s.current_age + ((k + 1 : ℕ) : ℤ) ≠ s.current_age := by
        push_cast; omega
      rw [if_pos ⟨he, hne⟩, if_neg (fun hcon => hne hcon.2), ih (by omega)]
      rw [if_neg (Nat.succ_ne_zero k), if_neg (Nat.succ_ne_zero (k + 1))]
      rw [Nat.add_sub_cancel, Nat.add_sub_cancel, ← pow_succ]

theorem timeline_rows_cpi (s : Scenario) (events : List LiquidityEvent)
    (he : s.inflation_enabled = true) :
    ∀ i : ℕ, i < (build_timeline s events).length →
      ((build_timeline s events).getD i default).cpi_index =
        if i = 0 then 1 else (1 + s.inflation_pct / 100) ^ (i - 1) := by
  intro i hi
  have hageslen : (timelineAges s).length = (s.end_age + 1 - s.current_age).toNat := by
    rw [timelineAges, List.length_map, List.length_range]
  have hlen := build_timeline_length s events
  have hi2 : i < (timelineAges s).length := by omega
  rw [build_timeline, timelineRowsFrom_getD s events _ _ i hi2, timelineStep_row_cpi,
    timelineAges_getD s hi2]
  cases i with
  | zero => rw [if_pos (by simp [he]), if_pos rfl]
  | succ k =>
    have hne : s.current_age + ((k + 1 : ℕ) : ℤ) ≠ s.current_age := by
      push_cast; omega
    rw [if_neg (fun hcon => hne hcon.2), timeline_states_cpi s events he _ hi2,
      if_neg (Nat.succ_ne_zero k)]

/-- C2 (amended): the recorded price index is 1.0 for the FIRST TWO
simulated ages; only from the third age onward does it equal the prior
age's index compounded by `(1 + inflation_rate)` (the source skips the
compounding step at the first age, so the index lags the claim by one
year).  The real end balance of every row equals the nominal end balance
divided by that row's price index, and equals the nominal end balance
unchanged when inflation is disabled. -/
theorem timeline_cpi_recurrence_and_real (s : Scenario) (events : List LiquidityEvent) :
    (s.inflation_enabled = true →
      (0 < (build_timeline s events).length →
        ((build_timeline s events).getD 0 default).cpi_index = 1)
      ∧ (1 < (build_timeline s events).length →
        ((build_timeline s events).getD 1 default).cpi_index = 1)
      ∧ (∀ i : ℕ, 1 ≤ i → i + 1 < (build_timeline s events).length →
        ((build_timeline s events).getD (i + 1) default).cpi_index =
          ((build_timeline s events).getD i default).cpi_index
            * (1 + s.inflation_pct / 100)))
    ∧ ∀ row ∈ build_timeline s events,
        row.end_balance_real =
          if s.inflation_enabled = true then row.end_balance_nominal / row.cpi_index
          else row.end_balance_nominal := by
  constructor
  · intro he
    refine ⟨?_, ?_, ?_⟩
    · intro h0
      rw [timeline_rows_cpi s events he 0 h0]
      rfl
    · intro h1
      rw [timeline_rows_cpi s events he 1 h1]
      simp
    · intro i h1 hi
      rw [timeline_rows_cpi s events he (i + 1) hi,
        timeline_rows_cpi s events he i (by omega),
        if_neg (by omega : ¬ i + 1 = 0), if_neg (by omega : ¬ i = 0),
        Nat.add_sub_cancel, ← pow_succ]
      congr 1
      omega
  · intro row hrow
    obtain ⟨age, st2, rfl⟩ := mem_timelineRowsFrom s events _ _ row hrow
    rfl

/-- C2 as stated is false on the code: with inflation enabled at 3%, the
second simulated age's recorded price index is still 1.0, not the prior
index compounded by 1.03. -/
theorem timeline_cpi_claim_counterexample :
    cxC2.inflation_enabled = true ∧
    ((build_timeline cxC2 []).getD 1 default).cpi_index ≠
      ((build_timeline cxC2 []).getD 0 default).cpi_index
        * (1 + cxC2.inflation_pct / 100) := by
  have hlen : (build_timeline cxC2 []).length = 2 := by
    rw [build_timeline_length]; rfl
  refine ⟨rfl, ?_⟩
  rw [timeline_rows_cpi cxC2 [] rfl 1 (by omega), timeline_rows_cpi cxC2 [] rfl 0 (by omega)]
  norm_num [cxC2]

/-! ## Lemmas about the cash-event aggregator -/

theorem apply_net_eq_sum (age : ℤ) :
    ∀ events : List LiquidityEvent,
      (apply_liquidity_events age events).1 =
        (events.map (fun e => (eventContribution age e).1)).sum
  | [] => rfl
  | e :: rest => by
    simp [apply_liquidity_events, apply_net_eq_sum age rest]

theorem apply_tax_eq_sum (age : ℤ) :
    ∀ events : List LiquidityEvent,
      (apply_liquidity_events age events).2.2 =
        (events.map (fun e => (eventContribution age e).2.2)).sum
  | [] => rfl
  | e :: rest => by
    simp [apply_liquidity_events, apply_tax_eq_sum age rest]

theorem apply_labels_eq_flatten (age : ℤ) :
    ∀ events : List LiquidityEvent,
      (apply_liquidity_events age events).2.1 =
        (events.map (fun e => (eventContribution age e).2.1)).flatten
  | [] => rfl
  | e :: rest => by
    simp [apply_liquidity_events, apply_labels_eq_flatten age rest]

/-- C5: the aggregator's net amount and tax are the sums of per-event
contributions (and its labels the concatenation), where a disabled event
contributes nothing to any output, an enabled event contributes only
inside its `[start_age, end_age]` window, a one-time event only at its
`start_age` (contributing its amount there), a recurring event at every
qualifying age with Monthly amounts multiplied by 12, and an event's tax
is nonzero only if it is taxable with strictly positive annualized
amount, in which case it is that amount times `tax_rate / 100`. -/
theorem apply_liquidity_events_spec (age : ℤ) (events : List LiquidityEvent) :
    (apply_liquidity_events age events).1 =
      (events.map (fun e => (eventContribution age e).1)).sum
    ∧ (apply_liquidity_events age events).2.2 =
      (events.map (fun e => (eventContribution age e).2.2)).sum
    ∧ (apply_liquidity_events age events).2.1 =
      (events.map (fun e => (eventContribution age e).2.1)).flatten
    ∧ (∀ e : LiquidityEvent, e.enabled = false → eventContribution age e = (0, [], 0))
    ∧ (∀ e : LiquidityEvent, ¬(e.start_age ≤ age ∧ age ≤ e.end_age) →
        eventContribution age e = (0, [], 0))
    ∧ (∀ e : LiquidityEvent, e.recurrence = "One-time" → age ≠ e.start_age →
        eventContribution age e = (0, [], 0))
    ∧ (∀ e : LiquidityEvent, e.enabled = true → e.start_age ≤ age → age ≤ e.end_age →
        e.recurrence = "One-time" → age = e.start_age →
        (eventContribution age e).1 = e.amount)
    ∧ (∀ e : LiquidityEvent, e.enabled = true → e.start_age ≤ age → age ≤ e.end_age →
        e.recurrence ≠ "One-time" →
        (eventContribution age e).1 =
          (if e.recurrence = "Monthly" then e.amount * 12 else e.amount))
    ∧ (∀ e : LiquidityEvent, (eventContribution age e).2.2 ≠ 0 →
        e.taxable = true ∧ 0 < (eventContribution age e).1)
    ∧ (∀ e : LiquidityEvent, e.taxable = true → 0 < (eventContribution age e).1 →
        (eventContribution age e).2.2 =
          (eventContribution age e).1 * (e.tax_rate / 100)) := by
  refine ⟨apply_net_eq_sum age events, apply_tax_eq_sum age events,
    apply_labels_eq_flatten age events, ?_, ?_, ?_, ?_, ?_, ?_, ?_⟩
  · intro e he
    simp [eventContribution, he]
  · intro e hw
    rw [eventContribution, if_neg (fun hcon => hw ⟨hcon.2.1, hcon.2.2⟩)]
  · intro e hrec hne
    by_cases h1 : e.enabled = true ∧ e.start_age ≤ age ∧ age ≤ e.end_age
    · rw [eventContribution, if_pos h1, if_pos hrec, if_neg hne]
    · rw [eventContribution, if_neg h1]
  · intro e he h1 h2 hrec heq
    rw [eventContribution, if_pos ⟨he, h1, h2⟩, if_pos hrec, if_pos heq]
  · intro e he h1 h2 hrec
    rw [eventContribution, if_pos ⟨he, h1, h2⟩, if_neg hrec]
  · intro e htax
    rw [eventContribution] at htax ⊢
    split_ifs at htax ⊢ with h1 h2 h3 h4 h5
    all_goals simp_all
  · intro e htaxable hpos
    rw [eventContribution] at hpos ⊢
    split_ifs at hpos ⊢ with h1 h2 h3 h4 h5
    all_goals simp_all

/-- C10: the aggregator is additive over concatenation of event lists in
its net amount and tax outputs, and consequently permuting the event list
leaves both unchanged. -/
theorem apply_liquidity_events_additive (age : ℤ) (l1 l2 : List LiquidityEvent) :
    ((apply_liquidity_events age (l1 ++ l2)).1 =
        (apply_liquidity_events age l1).1 + (apply_liquidity_events age l2).1
      ∧ (apply_liquidity_events age (l1 ++ l2)).2.2 =
        (apply_liquidity_events age l1).2.2 + (apply_liquidity_events age l2).2.2)
    ∧ (∀ l3 : List LiquidityEvent, l1.Perm l3 →
        (apply_liquidity_events age l1).1 = (apply_liquidity_events age l3).1
        ∧ (apply_liquidity_events age l1).2.2 = (apply_liquidity_events age l3).2.2) := by
  constructor
  · constructor
    · rw [apply_net_eq_sum, apply_net_eq_sum, apply_net_eq_sum, List.map_append,
        List.sum_append]
    · rw [apply_tax_eq_sum, apply_tax_eq_sum, apply_tax_eq_sum, List.map_append,
        List.sum_append]
  · intro l3 hp
    constructor
    · rw [apply_net_eq_sum, apply_net_eq_sum]
      exact (hp.map _).sum_eq
    · rw [apply_tax_eq_sum, apply_tax_eq_sum]
      exact (hp.map _).sum_eq

/-! ## Lemmas about the safe-withdrawal-rate solver -/

theorem swrSearch_succ (s : Scenario) (events : List LiquidityEvent) (tol : ℚ)
    (fuel : ℕ) (low high best : ℚ) :
    swrSearch s events tol (fuel + 1) low high best =
      (let mid := (low + high) / 2
       let solvent := isSolvent { s with withdrawal_pct := mid } events
       let best1 := if solvent then mid else best
       let low1 := if solvent then mid else low
       let high1 := if solvent then high else mid
       if high1 - low1 < tol then best1
       else swrSearch s events tol fuel low1 high1 best1) := rfl

theorem swrSearch_inv (s : Scenario) (events : List LiquidityEvent) (tol : ℚ) :
    ∀ (fuel : ℕ) (low high best : ℚ),
      0 ≤ low → high ≤ 20 → low ≤ high → 0 ≤ best → best ≤ 20 →
      (best = 0 ∨ isSolvent { s with withdrawal_pct := best } events = true) →
      (0 ≤ swrSearch s events tol fuel low high best
        ∧ swrSearch s events tol fuel low high best ≤ 20
        ∧ (swrSearch s events tol fuel low high best = 0
           ∨ isSolvent
               { s with withdrawal_pct := swrSearch s events tol fuel low high best }
               events = true)) := by
  intro fuel
  induction fuel with
  | zero =>
    intro low high best _ _ _ h4 h5 h6
    exact ⟨h4, h5, h6⟩
  | succ n ih =>
    intro low high best h1 h2 h3 h4 h5 h6
    rw [swrSearch_succ]
    have hmid1 : low ≤ (low + high) / 2 := by linarith
    have hmid2 : (low + high) / 2 ≤ high := by linarith
    by_cases hs : isSolvent { s with withdrawal_pct := (low + high) / 2 } events = true
    · simp only [hs, if_true]
      by_cases hb : high - (low + high) / 2 < tol
      · rw [if_pos hb]
        exact ⟨by linarith, by linarith, Or.inr hs⟩
      · rw [if_neg hb]
        exact ih ((low + high) / 2) high ((low + high) / 2)
          (by linarith) h2 hmid2 (by linarith) (by linarith) (Or.inr hs)
    · simp only [hs, if_false, Bool.false_eq_true]
      by_cases hb : (low + high) / 2 - low < tol
      · rw [if_pos hb]
        exact ⟨h4, h5, h6⟩
      · rw [if_neg hb]
        exact ih low ((low + high) / 2) best h1 (by linarith) hmid1 h4 h5 h6
    
theorem swrSearchSteps_le (s : Scenario) (events : List LiquidityEvent) (tol : ℚ) :
    ∀ (fuel : ℕ) (low high : ℚ),
      swrSearchSteps s events tol fuel low high ≤ fuel := by
  intro fuel
  induction fuel with
  | zero => intro low high; exact Nat.le_refl 0
  | succ n ih =>
    intro low high
    rw [swrSearchSteps]
    by_cases hs : isSolvent { s with withdrawal_pct := (low + high) / 2 } events = true
    · simp only [hs, if_true]
      split
      · omega
      · have := ih ((low + high) / 2) high
        omega
    · simp only [hs, if_false, Bool.false_eq_true]
      split
      · omega
      · have := ih low ((low + high) / 2)
        omega

/-- C8: `solve_safe_withdrawal_rate` returns `none` exactly when the
scenario's withdrawal method is not the percentage-of-prior-balance
method, and returns a numeric rate (never `none`) for every scenario
using the percentage method. -/
theorem solve_swr_none_iff (s : Scenario) (events : List LiquidityEvent)
    (tol : ℚ) (maxIter : ℕ) :
    (solve_safe_withdrawal_rate s events tol maxIter = none ↔
      s.withdrawal_method ≠ "Fixed % of prior-year end balance")
    ∧ (s.withdrawal_method = "Fixed % of prior-year end balance" →
        ∃ r : ℚ, solve_safe_withdrawal_rate s events tol maxIter = some r) := by
  constructor
  · constructor
    · intro h hm
      rw [solve_safe_withdrawal_rate, if_neg (not_not_intro hm)] at h
      exact Option.noConfusion h
    · intro hne
      rw [solve_safe_withdrawal_rate, if_pos hne]
  · intro hm
    exact ⟨_, by rw [solve_safe_withdrawal_rate, if_neg (not_not_intro hm)]⟩

/-- C3 (amended): for every percentage-method scenario the solver returns
a rate in `[0, 20]` which, when nonzero, was tested solvent — feeding it
back into `build_timeline` yields a minimum nominal end balance ≥ 0 — and
is 0.0 when no tested midpoint was solvent; the binary search performs at
most `max_iterations` iterations (stopping earlier when the bracket width
drops below the tolerance).  The unconditional claim fails: the 0.0
fallback need not be solvent, and rates above the returned rate can be
solvent (see the counterexample). -/
theorem solve_swr_amended (s : Scenario) (events : List LiquidityEvent)
    (tol : ℚ) (maxIter : ℕ)
    (hm : s.withdrawal_method = "Fixed % of prior-year end balance") :
    ∃ r : ℚ, solve_safe_withdrawal_rate s events tol maxIter = some r
      ∧ 0 ≤ r ∧ r ≤ 20
      ∧ (r ≠ 0 → isSolvent { s with withdrawal_pct := r } events = true)
      ∧ swrSearchSteps s events tol maxIter 0 20 ≤ maxIter := by
  obtain ⟨hr1, hr2, hr3⟩ := swrSearch_inv s events tol maxIter 0 20 0
    (le_refl 0) (le_refl 20) (by norm_num) (le_refl 0) (by norm_num) (Or.inl rfl)
  refine ⟨swrSearch s events tol maxIter 0 20 0, ?_, hr1, hr2, ?_, ?_⟩
  · rw [solve_safe_withdrawal_rate, if_neg (not_not_intro hm)]
  · intro hne
    rcases hr3 with h | h
    · exact absurd h hne
    · exact h
  · exact swrSearchSteps_le s events tol maxIter 0 20

theorem build_timeline_single (s : Scenario) (events : List LiquidityEvent)
    (h : s.current_age = s.end_age) :
    build_timeline s events =
      [(timelineStep s events s.current_age (initTimelineState s)).1] := by
  rw [build_timeline, timelineAges]
  have h1 : (s.end_age + 1 - s.current_age).toNat = 1 := by omega
  rw [h1]
  simp [timelineRowsFrom, List.range_succ]

theorem cxC3_insolvent_at_zero :
    isSolvent { cxC3 with withdrawal_pct := (0 : ℚ) } [] = false := by
  rw [isSolvent, build_timeline_single _ _ rfl]
  norm_num [timelineStep, initTimelineState, contributionsAt, withdrawalsAt,
    apply_liquidity_events, cxC3, cxC2, List.min?]

theorem cxC3_insolvent_at_ten :
    isSolvent { cxC3 with withdrawal_pct := (10 : ℚ) } [] = false := by
  rw [isSolvent, build_timeline_single _ _ rfl]
  norm_num [timelineStep, initTimelineState, contributionsAt, withdrawalsAt,
    apply_liquidity_events, cxC3, cxC2, List.min?]

theorem cxC3_solvent_at_150 :
    isSolvent { cxC3 with withdrawal_pct := (150 : ℚ) } [] = true := by
  rw [isSolvent, build_timeline_single _ _ rfl]
  norm_num [timelineStep, initTimelineState, contributionsAt, withdrawalsAt,
    apply_liquidity_events, cxC3, cxC2, List.min?]

/-- C3 as stated is false on the code: on `cxC3` (with tolerance 15) the
solver returns 0.0, yet feeding 0.0 back into `build_timeline` yields a
negative minimum nominal end balance, and the rate 150 — exceeding the
returned rate by more than the tolerance — yields a nonnegative minimum
nominal end balance. -/
theorem solve_swr_claim_counterexample :
    solve_safe_withdrawal_rate cxC3 [] 15 50 = some 0
    ∧ isSolvent { cxC3 with withdrawal_pct := 0 } [] = false
    ∧ ((0 : ℚ) + 15 < 150)
    ∧ isSolvent { cxC3 with withdrawal_pct := 150 } [] = true := by
  refine ⟨?_, cxC3_insolvent_at_zero, by norm_num, cxC3_solvent_at_150⟩
  have hm : cxC3.withdrawal_method = "Fixed % of prior-year end balance" := rfl
  rw [solve_safe_withdrawal_rate, if_neg (not_not_intro hm)]
  show some (swrSearch cxC3 [] 15 (49 + 1) 0 20 0) = some 0
  rw [swrSearch_succ]
  norm_num [cxC3_insolvent_at_ten]

/-! ## Monte Carlo lemmas -/

/-- C9: `run_monte_carlo` is deterministic in its inputs: the result does
not depend on the incoming global generator state, because the function
reseeds the generator from the seed alone and pre-generates the full
`[trials × years]` grid of returns before simulating; hence two runs with
identical scenario, event list, trial count and seed produce identical
probability of no shortfall, identical median/P10/P90 terminals and
identical P10/P50/P90 paths. -/
theorem run_monte_carlo_deterministic (pre1 pre2 : NpRandomState) (s : Scenario)
    (events : List LiquidityEvent) (runs seed : ℕ) :
    run_monte_carlo pre1 s events runs seed = run_monte_carlo pre2 s events runs seed
    ∧ (run_monte_carlo pre1 s events runs seed).probability_no_shortfall =
        (run_monte_carlo pre2 s events runs seed).probability_no_shortfall
    ∧ (run_monte_carlo pre1 s events runs seed).median_terminal =
        (run_monte_carlo pre2 s events runs seed).median_terminal
    ∧ (run_monte_carlo pre1 s events runs seed).p10_terminal =
        (run_monte_carlo pre2 s events runs seed).p10_terminal
    ∧ (run_monte_carlo pre1 s events runs seed).p90_terminal =
        (run_monte_carlo pre2 s events runs seed).p90_terminal
    ∧ (run_monte_carlo pre1 s events runs seed).p10_path =
        (run_monte_carlo pre2 s events runs seed).p10_path
    ∧ (run_monte_carlo pre1 s events runs seed).p50_path =
        (run_monte_carlo pre2 s events runs seed).p50_path
    ∧ (run_monte_carlo pre1 s events runs seed).p90_path =
        (run_monte_carlo pre2 s events runs seed).p90_path :=
  ⟨rfl, rfl, rfl, rfl, rfl, rfl, rfl, rfl⟩

theorem mcStep_eq_timelineStep (s : Scenario) (events : List LiquidityEvent)
    (hm : s.withdrawal_method = "Fixed % of prior-year end balance")
    (hf : s.withdrawal_frequency ≠ "Monthly")
    (age : ℤ) (mst : MCState) (tst : TimelineState)
    (hb : mst.balance_nominal = tst.balance_nominal)
    (hp : mst.prior_year_end_balance = tst.prior_year_end_balance) :
    (mcStep s events age (s.nominal_return_pct / 100) mst).1 =
      (timelineStep s events age tst).1.end_balance_nominal
    ∧ (mcStep s events age (s.nominal_return_pct / 100) mst).2.balance_nominal =
      (timelineStep s events age tst).2.balance_nominal
    ∧ (mcStep s events age (s.nominal_return_pct / 100) mst).2.prior_year_end_balance =
      (timelineStep s events age tst).2.prior_year_end_balance := by
  have hw : mcWithdrawals s age mst = withdrawalsAt s age tst := by
    simp [mcWithdrawals, withdrawalsAt, hp, hm, hf]
  refine ⟨?_, ?_, ?_⟩ <;> simp [mcStep, timelineStep, hw, hb]

theorem mcTrialNominalPath_eq_det (s : Scenario) (events : List LiquidityEvent)
    (hm : s.withdrawal_method = "Fixed % of prior-year end balance")
    (hf : s.withdrawal_frequency ≠ "Monthly") :
    ∀ (ages : List ℤ) (mst : MCState) (tst : TimelineState),
      mst.balance_nominal = tst.balance_nominal →
      mst.prior_year_end_balance = tst.prior_year_end_balance →
      mcTrialNominalPath s events
          (ages.map (fun a => (a, s.nominal_return_pct / 100))) mst
        = (timelineRowsFrom s events ages tst).map TimelineRow.end_balance_nominal := by
  intro ages
  induction ages with
  | nil => intro mst tst _ _; rfl
  | cons a rest ih =>
    intro mst tst hb hp
    obtain ⟨h1, h2, h3⟩ := mcStep_eq_timelineStep s events hm hf a mst tst hb hp
    simp only [List.map_cons, mcTrialNominalPath, timelineRowsFrom]
    rw [h1]
    exact congrArg _ (ih _ _ h2 h3)

theorem mcAges_const (s : Scenario) (rets : ℕ → ℚ) (c : ℚ) (h : ∀ i, rets i = c) :
    mcAgesWithReturns s rets = (timelineAges s).map (fun a => (a, c)) := by
  rw [mcAgesWithReturns, timelineAges, List.map_map]
  simp [Function.comp, h]

theorem range_map_const {α : Type} (c : α) :
    ∀ n : ℕ, (List.range n).map (fun _ => c) = List.replicate n c := by
  intro n
  induction n with
  | zero => rfl
  | succ k ih =>
    rw [List.range_succ, List.map_append, ih, List.replicate_succ']
    rfl

theorem getLastD_of_ne_nil {α : Type} (l : List α) (h : l ≠ []) (a b : α) :
    l.getLastD a = l.getLastD b := by
  cases l with
  | nil => exact absurd rfl h
  | cons x xs => rw [List.getLastD_cons, List.getLastD_cons]

theorem insertionSort_getD_replicate (n : ℕ) (c : ℚ) (i : ℕ) (hi : i < n) :
    ((List.replicate n c).insertionSort (· ≤ ·)).getD i 0 = c := by
  have hperm := List.perm_insertionSort (α := ℚ) (· ≤ ·) (List.replicate n c)
  have hlen : ((List.replicate n c).insertionSort (· ≤ ·)).length = n := by
    rw [hperm.length_eq, List.length_replicate]
  have hilt : i < ((List.replicate n c).insertionSort (· ≤ ·)).length := by omega
  rw [List.getD_eq_getElem?_getD, List.getElem?_eq_getElem hilt]
  exact List.eq_of_mem_replicate (hperm.mem_iff.mp (List.getElem_mem hilt))

theorem npMedian_replicate (n : ℕ) (h : 0 < n) (c : ℚ) :
    npMedian (List.replicate n c) = c := by
  rw [npMedian]
  simp only [List.length_replicate]
  rw [if_neg (by omega)]
  by_cases hpar : n % 2 = 1
  · rw [if_pos hpar, insertionSort_getD_replicate n c _ (by omega)]
  · rw [if_neg hpar, insertionSort_getD_replicate n c _ (by omega),
      insertionSort_getD_replicate n c _ (by omega)]
    ring

/-- C1 (amended): for every scenario with `return_stdev_pct = 0` that uses
the percentage-of-prior-balance withdrawal method with a non-Monthly
withdrawal frequency, every Monte Carlo trial's nominal balance path
equals, age by age, the `end_balance_nominal` sequence of the
deterministic timeline, and the Monte Carlo terminal median equals the
deterministic terminal nominal balance.  (The unrestricted claim fails:
under the Monthly frequency the Monte Carlo recurrence multiplies the
percentage withdrawal by 12 while the deterministic builder does not —
see the counterexample.) -/
theorem mc_zero_stdev_matches_deterministic (pre : NpRandomState) (s : Scenario)
    (events : List LiquidityEvent) (runs seed : ℕ)
    (hstd : s.return_stdev_pct = 0)
    (hm : s.withdrawal_method = "Fixed % of prior-year end balance")
    (hf : s.withdrawal_frequency ≠ "Monthly")
    (hage : s.current_age ≤ s.end_age)
    (hruns : 0 < runs) :
    (∀ t : ℕ,
      mcTrialNominalPath s events
        (mcAgesWithReturns s
          (npNormalGrid (npSeed pre seed) (s.nominal_return_pct / 100)
            (s.return_stdev_pct / 100) t))
        (mcInitState s)
      = (build_timeline s events).map TimelineRow.end_balance_nominal)
    ∧ (run_monte_carlo pre s events runs seed).median_terminal =
        terminal_nominal s events := by
  have hgrid : ∀ t i : ℕ, npNormalGrid (npSeed pre seed) (s.nominal_return_pct / 100)
      (s.return_stdev_pct / 100) t i = s.nominal_return_pct / 100 := by
    intro t i
    simp [npNormalGrid, hstd]
  have hpath : ∀ t : ℕ,
      mcTrialNominalPath s events
        (mcAgesWithReturns s
          (npNormalGrid (npSeed pre seed) (s.nominal_return_pct / 100)
            (s.return_stdev_pct / 100) t))
        (mcInitState s)
      = (build_timeline s events).map TimelineRow.end_balance_nominal := by
    intro t
    rw [mcAges_const s _ (s.nominal_return_pct / 100) (hgrid t), build_timeline]
    exact mcTrialNominalPath_eq_det s events hm hf (timelineAges s) (mcInitState s)
      (initTimelineState s) rfl rfl
  refine ⟨hpath, ?_⟩
  have hne : (build_timeline s events).map TimelineRow.end_balance_nominal ≠ [] := by
    apply List.ne_nil_of_length_pos
    rw [List.length_map, build_timeline_length]
    omega
  have hmed : (run_monte_carlo pre s events runs seed).median_terminal =
      npMedian (((List.range runs).map (fun t =>
        mcTrialNominalPath s events
          (mcAgesWithReturns s
            (npNormalGrid (npSeed pre seed) (s.nominal_return_pct / 100)
              (s.return_stdev_pct / 100) t))
          (mcInitState s))).map (fun p => p.getLastD s.current_balance)) := rfl
  rw [hmed, List.map_map]
  have hterm : ((fun p => List.getLastD p s.current_balance) ∘ (fun t =>
      mcTrialNominalPath s events
        (mcAgesWithReturns s
          (npNormalGrid (npSeed pre seed) (s.nominal_return_pct / 100)
            (s.return_stdev_pct / 100) t))
        (mcInitState s)))
      = (fun _ : ℕ =>
        ((build_timeline s events).map TimelineRow.end_balance_nominal).getLastD
          s.current_balance) := by
    funext t
    simp only [Function.comp]
    rw [hpath t]
  rw [hterm, range_map_const, npMedian_replicate runs hruns, terminal_nominal]
  exact getLastD_of_ne_nil _ hne _ _

/-- C1 as stated is false on the code: on `cxC1` (stdev 0) the Monte
Carlo terminal median is -20 (the trial multiplies the percentage
withdrawal by 12 under the Monthly frequency) while the deterministic
terminal nominal balance is 90. -/
theorem mc_claim_counterexample :
    cxC1.return_stdev_pct = 0 ∧
    (run_monte_carlo ⟨7⟩ cxC1 [] 1 42).median_terminal ≠ terminal_nominal cxC1 [] := by
  refine ⟨rfl, ?_⟩
  have hdet : terminal_nominal cxC1 [] = 90 := by
    rw [terminal_nominal, build_timeline_single _ _ rfl]
    norm_num [timelineStep, initTimelineState, contributionsAt, withdrawalsAt,
      apply_liquidity_events, cxC1, cxC2, List.getLastD_cons, List.getLastD_nil]
  have hmc : (run_monte_carlo ⟨7⟩ cxC1 [] 1 42).median_terminal = -20 := by
    have h0 : (run_monte_carlo ⟨7⟩ cxC1 [] 1 42).median_terminal =
        npMedian (((List.range 1).map (fun t =>
          mcTrialNominalPath cxC1 []
            (mcAgesWithReturns cxC1
              (npNormalGrid (npSeed ⟨7⟩ 42) (cxC1.nominal_return_pct / 100)
                (cxC1.return_stdev_pct / 100) t))
            (mcInitState cxC1))).map (fun p => p.getLastD cxC1.current_balance)) := rfl
    rw [h0]
    norm_num [mcAgesWithReturns, mcTrialNominalPath, mcStep, mcInitState,
      mcWithdrawals, contributionsAt, apply_liquidity_events, npNormalGrid,
      npSeed, normalNoise, npMedian, List.insertionSort, List.orderedInsert,
      cxC1, cxC2, List.range_succ, List.getLastD_cons, List.getLastD_nil]
  rw [hmc, hdet]
  norm_num

/-! ## Witnesses instantiating the hypothesis-bearing theorems -/

theorem build_timeline_shape_witness :
    ((build_timeline cxC2 []).length : ℤ) = cxC2.end_age - cxC2.current_age + 1
    ∧ (∀ i : ℕ, i < (build_timeline cxC2 []).length →
        ((build_timeline cxC2 []).getD i default).age = cxC2.current_age + i)
    ∧ ((build_timeline cxC2 []).getD 0 default).cpi_index = 1
    ∧ (cxC2.current_age = cxC2.end_age → (build_timeline cxC2 []).length = 1) :=
  build_timeline_shape cxC2 [] (by decide)

theorem timeline_row_fees_growth_end_witness :
    ((timelineStep cxC3 [] cxC3.current_age (initTimelineState cxC3)).1).fees =
      ((timelineStep cxC3 [] cxC3.current_age
          (initTimelineState cxC3)).1).start_balance_nominal * (cxC3.fee_pct / 100)
    ∧ ((timelineStep cxC3 [] cxC3.current_age (initTimelineState cxC3)).1).growth =
      (((timelineStep cxC3 [] cxC3.current_age
            (initTimelineState cxC3)).1).start_balance_nominal
        + ((timelineStep cxC3 [] cxC3.current_age
            (initTimelineState cxC3)).1).contributions
        + ((timelineStep cxC3 [] cxC3.current_age
            (initTimelineState cxC3)).1).liquidity_net
        - ((timelineStep cxC3 [] cxC3.current_age
            (initTimelineState cxC3)).1).withdrawals
        - ((timelineStep cxC3 [] cxC3.current_age (initTimelineState cxC3)).1).fees
        - ((timelineStep cxC3 [] cxC3.current_age (initTimelineState cxC3)).1).taxes)
        * (cxC3.nominal_return_pct / 100)
    ∧ ((timelineStep cxC3 [] cxC3.current_age
          (initTimelineState cxC3)).1).end_balance_nominal =
      (((timelineStep cxC3 [] cxC3.current_age
            (initTimelineState cxC3)).1).start_balance_nominal
        + ((timelineStep cxC3 [] cxC3.current_age
            (initTimelineState cxC3)).1).contributions
        + ((timelineStep cxC3 [] cxC3.current_age
            (initTimelineState cxC3)).1).liquidity_net
        - ((timelineStep cxC3 [] cxC3.current_age
            (initTimelineState cxC3)).1).withdrawals
        - ((timelineStep cxC3 [] cxC3.current_age (initTimelineState cxC3)).1).fees
        - ((timelineStep cxC3 [] cxC3.current_age (initTimelineState cxC3)).1).taxes)
        + ((timelineStep cxC3 [] cxC3.current_age (initTimelineState cxC3)).1).growth :=
  timeline_row_fees_growth_end cxC3 []
    ((timelineStep cxC3 [] cxC3.current_age (initTimelineState cxC3)).1)
    (by rw [build_timeline_single cxC3 [] rfl]; exact List.mem_singleton_self _)

theorem timeline_withdrawals_spec_witness :
    (((build_timeline cxC3 []).getD 0 default).age < cxC3.retirement_age →
        ((build_timeline cxC3 []).getD 0 default).withdrawals = 0)
    ∧ (cxC3.withdrawal_method = "Fixed % of prior-year end balance" →
        cxC3.retirement_age ≤ ((build_timeline cxC3 []).getD 0 default).age →
        ((build_timeline cxC3 []).getD 0 default).withdrawals =
          (if (0 : ℕ) = 0 then cxC3.current_balance
           else ((build_timeline cxC3 []).getD (0 - 1) default).end_balance_nominal)
            * (cxC3.withdrawal_pct / 100)) :=
  timeline_withdrawals_spec cxC3 [] 0
    (by rw [build_timeline_length]; decide)

theorem solve_swr_amended_witness :
    ∃ r : ℚ, solve_safe_withdrawal_rate cxC3 [] (1 / 100) 50 = some r
      ∧ 0 ≤ r ∧ r ≤ 20
      ∧ (r ≠ 0 → isSolvent { cxC3 with withdrawal_pct := r } [] = true)
      ∧ swrSearchSteps cxC3 [] (1 / 100) 50 0 20 ≤ 50 :=
  solve_swr_amended cxC3 [] (1 / 100) 50 rfl

theorem mc_zero_stdev_matches_deterministic_witness :
    (∀ t : ℕ,
      mcTrialNominalPath cxC3 []
        (mcAgesWithReturns cxC3
          (npNormalGrid (npSeed ⟨0⟩ 42) (cxC3.nominal_return_pct / 100)
            (cxC3.return_stdev_pct / 100) t))
        (mcInitState cxC3)
      = (build_timeline cxC3 []).map TimelineRow.end_balance_nominal)
    ∧ (run_monte_carlo ⟨0⟩ cxC3 [] 1 42).median_terminal =
        terminal_nominal cxC3 [] :=
  mc_zero_stdev_matches_deterministic ⟨0⟩ cxC3 [] 1 42 rfl rfl (by decide)
    (by decide) (by decide)
